import Mathlib

/-!
Verification of the audio feature-extraction and feedback pipeline of
`analyzer/main.py` (`analyze` endpoint).  Samples and derived quantities are
modelled as exact rationals.  The parts of the computation written directly in
`main.py` (down-mixing, the peak via `max(abs(y.flatten()))`, the band masks
and band means over the magnitude spectrogram, the threshold classifier, the
feedback-record assembly, and the staged pipeline around the external
collaborators) are translated definition by definition.  The DSP routines the
source delegates to the `librosa` library (`librosa.feature.rms`,
`librosa.feature.spectral_contrast`, `librosa.stft`) are not part of this
repository; they are modelled as components of a `DSP` record, constrained
where needed by predicates modelled from the spec.
-/

set_option maxRecDepth 100000

attribute [local semireducible] Rat.add Rat.mul Rat.inv Rat.sub

namespace Analyzer

/-- Python `abs` on a rational sample. -/
def pyAbs (s : ℚ) : ℚ := if s < 0 then -s else s

/-- Python's binary `max` on rationals. -/
def pyMax (a b : ℚ) : ℚ := if a ≤ b then b else a

/-- A decoded audio buffer: `librosa.load(..., mono=False)` yields a
one-dimensional sample array for mono files (here: a single channel) or a
channel-major two-dimensional array (here: one list per channel), plus the
sample rate. -/
structure SampleBuffer where
  channels : List (List ℚ)
  sr : ℚ
  deriving DecidableEq

/-- `y.flatten()`: all samples in channel-major (row-major) order. -/
def flattenB (b : SampleBuffer) : List ℚ :=
  b.channels.flatten

/-- One sample of `y.mean(axis=0)`: the mean across channels at index `i`. -/
def channelMeanAt (chs : List (List ℚ)) (i : ℕ) : ℚ :=
  (chs.map (fun c => c.getD i 0)).sum / (chs.length : ℚ)

/-- `y.mean(axis=0)`: sample-wise mean across channels. -/
def downmix (chs : List (List ℚ)) : List ℚ :=
  (List.range (chs.headD []).length).map (channelMeanAt chs)

/-- `y if y.ndim == 1 else y.mean(axis=0)`: the single analysis channel used
for RMS, spectral contrast and the STFT. -/
def analysisChannel (b : SampleBuffer) : List ℚ :=
  if b.channels.length = 1 then b.channels.headD [] else downmix b.channels

/-- Python `max` over a sequence: `none` on an empty sequence (where `max`
raises `ValueError`). -/
def listMax : List ℚ → Option ℚ
  | [] => none
  | x :: xs =>
    some (match listMax xs with
      | none => x
      | some m => pyMax x m)

/-- `max(abs(y.flatten()))` (line 74 of `main.py`). -/
def peakRaw (b : SampleBuffer) : Option ℚ :=
  listMax ((flattenB b).map pyAbs)

/-- `numpy` `.mean()` over a collection of cells: the mean of an empty
selection is NaN (modelled as `none`), never an exception. -/
def npMean (cells : List ℚ) : Option ℚ :=
  if cells = [] then none else some (cells.sum / (cells.length : ℚ))

/-- The default FFT size used by `librosa.stft` / `librosa.fft_frequencies`. -/
def nFFT : ℕ := 2048

/-- `librosa.fft_frequencies(sr=sr)`: `1 + nFFT/2` bin frequencies
`k * sr / nFFT` for `k = 0 .. nFFT/2`. -/
def fftFrequencies (sr : ℚ) : List ℚ :=
  (List.range (nFFT / 2 + 1)).map (fun k : ℕ => (k : ℚ) * sr / (nFFT : ℚ))

/-- The three-band frequency balance (fields of the `balance` dict). -/
structure Bands where
  low : Option ℚ
  mid : Option ℚ
  high : Option ℚ
  deriving DecidableEq

/-- `S[mask]`: the spectrogram rows whose bin frequency satisfies the mask
predicate. -/
def selectRows (S : List (List ℚ)) (sr : ℚ) (p : ℚ → Bool) : List (List ℚ) :=
  ((fftFrequencies sr).zip S).filterMap (fun fr => if p fr.1 then some fr.2 else none)

/-- `float(S[mask].mean())`: the mean over all (bin, frame) cells of the
selected rows. -/
def bandMean (S : List (List ℚ)) (sr : ℚ) (p : ℚ → Bool) : Option ℚ :=
  npMean (selectRows S sr p).flatten

/-- Lines 82-89 of `main.py`: `low_idx = freqs < 200`,
`mid_idx = (freqs >= 200) & (freqs < 2000)`, `high_idx = freqs >= 2000`,
and the `balance` dict of the three band means. -/
def bandBalance (S : List (List ℚ)) (sr : ℚ) : Bands :=
  { low := bandMean S sr (fun f => decide (f < 200))
    mid := bandMean S sr (fun f => decide (200 ≤ f) && decide (f < 2000))
    high := bandMean S sr (fun f => decide (2000 ≤ f)) }

/-- The four features computed in lines 73-89 of `main.py`, under the local
names the source gives them (`rms`, `peak`, `stereo_width`, `balance`). -/
structure FeatureSet where
  rms : ℚ
  peak : ℚ
  stereo_width : ℚ
  balance : Bands
  deriving DecidableEq

/-- The three `librosa` DSP routines the source calls.  Their implementations
live in the `librosa` dependency, not in this repository, so they enter the
model as parameters; the spec-derived facts about them are stated separately
as `RmsMeanSpec`, `ContrastMeanSpec` and `StftMagSpec`. -/
structure DSP where
  rmsMean : List ℚ → ℚ
  contrastMean : List ℚ → ℚ → ℚ
  stftMag : List ℚ → List (List ℚ)

/-- Lines 73-89 of `main.py`: the feature extraction.  `none` models the
`ValueError` Python's `max` raises on an empty sequence; every other step is
total. -/
def extract (dsp : DSP) (b : SampleBuffer) : Option FeatureSet :=
  match peakRaw b with
  | none => none
  | some p =>
    some { rms := dsp.rmsMean (analysisChannel b)
           peak := p
           stereo_width := dsp.contrastMean (analysisChannel b) b.sr
           balance := bandBalance (dsp.stftMag (analysisChannel b)) b.sr }

/-- Note emitted by the Silence rule (`rms < 0.01`). -/
def noteSilence : String := "Traccia troppo silenziosa."

/-- Note emitted by the Clipping rule (`peak > 0.9`). -/
def noteClipping : String := "Attenzione al clipping."

/-- Note emitted by the Narrow-field rule (`stereo_width < 10`). -/
def noteNarrow : String := "Campo stereo stretto."

/-- Fallback note when no rule fires. -/
def noteOk : String := "Mix in media ok."

/-- Lines 91-99 of `main.py`: the threshold classifier.  Each rule appends its
note independently; if no rule fired the fallback note is emitted. -/
def classify (fs : FeatureSet) : List String :=
  let notes :=
    (if fs.rms < 1/100 then [noteSilence] else []) ++
    (if fs.peak > 9/10 then [noteClipping] else []) ++
    (if fs.stereo_width < 10 then [noteNarrow] else [])
  if notes = [] then [noteOk] else notes

/-- The `fb` dict of lines 101-108 of `main.py`. -/
structure FeedbackRecord where
  track_id : String
  loudness_db : ℚ
  peak_db : ℚ
  stereo_width : ℚ
  freq_balance : Bands
  ai_notes : String
  deriving DecidableEq

/-- Lines 101-108 of `main.py`: assembly of the feedback record;
`" ".join(notes)` is `String.intercalate " " notes`. -/
def assemble (tid : String) (fs : FeatureSet) (notes : List String) : FeedbackRecord :=
  { track_id := tid
    loudness_db := fs.rms
    peak_db := fs.peak
    stereo_width := fs.stereo_width
    freq_balance := fs.balance
    ai_notes := String.intercalate (" ") notes }

/-- The track record fetched from the `tracks` table (only `file_url` is
read). -/
structure Track where
  file_url : String
  deriving DecidableEq

/-- Raw downloaded audio bytes (opaque to the core). -/
abbrev AudioBytes := List ℕ

/-- The external collaborators of the endpoint: Supabase track lookup,
HTTP download, `librosa.load` decoding, and the Supabase feedback insert.
`none` (resp. `false` for `persist`) models the collaborator failing. -/
structure Collab where
  lookup : String → Option Track
  download : String → Option AudioBytes
  decode : AudioBytes → Option SampleBuffer
  persist : FeedbackRecord → Bool

/-- The failure exits of the `analyze` endpoint: the 404 for a missing track,
the generic 500s from download / decode / extraction, and the explicit 500
for a failed feedback insert. -/
inductive Err where
  | notFound
  | retrievalError
  | decodeError
  | internalError
  | persistError
  deriving DecidableEq

/-- Stages of the endpoint, recorded in order of invocation. -/
inductive Event where
  | lookedUp
  | downloaded
  | decoded
  | extracted
  | persisted (fb : FeedbackRecord)
  deriving DecidableEq

/-- The success payload `{"status": "analyzed", "feedback": fb}`. -/
structure AnalyzeResponse where
  status : String
  feedback : FeedbackRecord
  deriving DecidableEq

/-- Lines 53-122 of `main.py`: the full endpoint.  Each stage either raises
(ending the request with its error) or passes its value on; alongside the
result we record the stages that were actually invoked. -/
def analyze (c : Collab) (dsp : DSP) (tid : String) :
    List Event × Except Err AnalyzeResponse :=
  match c.lookup tid with
  | none => ([Event.lookedUp], Except.error Err.notFound)
  | some track =>
    match c.download track.file_url with
    | none =>
      ([Event.lookedUp, Event.downloaded], Except.error Err.retrievalError)
    | some bytes =>
      match c.decode bytes with
      | none =>
        ([Event.lookedUp, Event.downloaded, Event.decoded],
         Except.error Err.decodeError)
      | some buf =>
        match extract dsp buf with
        | none =>
          ([Event.lookedUp, Event.downloaded, Event.decoded, Event.extracted],
           Except.error Err.internalError)
        | some fs =>
          let fb := assemble tid fs (classify fs)
          if c.persist fb then
            ([Event.lookedUp, Event.downloaded, Event.decoded, Event.extracted,
              Event.persisted fb],
             Except.ok { status := "analyzed", feedback := fb })
          else
            ([Event.lookedUp, Event.downloaded, Event.decoded, Event.extracted,
              Event.persisted fb],
             Except.error Err.persistError)

/-- The persistence events among a trace. -/
def persistedEvents (events : List Event) : List Event :=
  events.filter (fun ev =>
    match ev with
    | Event.persisted _ => true
    | _ => false)

/-- Modelled from the spec: `librosa.feature.rms(y=...).mean()` (missing from
this repository) is the RMS loudness of the signal, and "Must equal 0 for an
all-zero/empty buffer". -/
def RmsMeanSpec (f : List ℚ → ℚ) : Prop :=
  ∀ y : List ℚ, (∀ s ∈ y, s = 0) → f y = 0

/-- Modelled from the spec: `librosa.feature.spectral_contrast(...).mean()`
(missing from this repository) has "contractual default 0 on a degenerate
(silent or single-sample) buffer". -/
def ContrastMeanSpec (f : List ℚ → ℚ → ℚ) : Prop :=
  ∀ (y : List ℚ) (sr : ℚ), ((∀ s ∈ y, s = 0) ∨ y.length ≤ 1) → f y sr = 0

/-- Modelled from the spec: `abs(librosa.stft(y))` (missing from this
repository) is a magnitude spectrogram with `1 + nFFT/2` frequency rows, all
entries nonnegative. -/
def StftMagSpec (g : List ℚ → List (List ℚ)) : Prop :=
  ∀ y : List ℚ, (g y).length = nFFT / 2 + 1 ∧ ∀ row ∈ g y, ∀ x ∈ row, 0 ≤ x

/-- Every sample in every channel is zero. -/
def Silent (b : SampleBuffer) : Prop :=
  ∀ c ∈ b.channels, ∀ s ∈ c, s = 0

/-- A decodable buffer: at least one channel, all channels of equal length. -/
def WellFormed (b : SampleBuffer) : Prop :=
  b.channels ≠ [] ∧ ∀ c ∈ b.channels, c.length = (b.channels.headD []).length

/-- The spec's degenerate inputs: silent, or at most one sample per channel. -/
def DegenerateBuffer (b : SampleBuffer) : Prop :=
  Silent b ∨ (b.channels.headD []).length ≤ 1

/-- The spec's notion of a structurally invalid buffer: zero channels,
non-positive sample rate, or an empty sample sequence under a non-empty
channel claim. -/
def StructurallyInvalid (b : SampleBuffer) : Prop :=
  b.channels = [] ∨ b.sr ≤ 0 ∨ (flattenB b = [] ∧ b.channels ≠ [])

/-- The high band `[2000, Nyquist]` contains zero spectrum bins at this
sample rate. -/
def HighBandEmpty (sr : ℚ) : Prop :=
  ∀ f ∈ fftFrequencies sr, ¬ (2000 ≤ f)

instance (b : SampleBuffer) : Decidable (Silent b) :=
  inferInstanceAs (Decidable (∀ c ∈ b.channels, ∀ s ∈ c, s = 0))

instance (b : SampleBuffer) : Decidable (WellFormed b) :=
  inferInstanceAs (Decidable (_ ∧ ∀ c ∈ b.channels, c.length = (b.channels.headD []).length))

instance (b : SampleBuffer) : Decidable (DegenerateBuffer b) :=
  inferInstanceAs (Decidable (Silent b ∨ _ ≤ 1))

instance (b : SampleBuffer) : Decidable (StructurallyInvalid b) :=
  inferInstanceAs (Decidable (_ ∨ _ ≤ 0 ∨ (_ ∧ _ ≠ [])))

instance (sr : ℚ) : Decidable (HighBandEmpty sr) :=
  inferInstanceAs (Decidable (∀ f ∈ fftFrequencies sr, ¬ (2000 ≤ f)))

/-- Follows the spec's words (reference model for the assembler): join the
notes into one string with a single-space separator, preserving their order,
with no other transformation. -/
def joinWithSpace : List String → String
  | [] => ""
  | [n] => n
  | n :: rest => n ++ " " ++ joinWithSpace rest

/-- A minimal concrete `DSP` instance used to evaluate witnesses whose claims
do not constrain the spectrogram. -/
def dspTiny : DSP :=
  { rmsMean := fun _ => 0
    contrastMean := fun _ _ => 0
    stftMag := fun _ => [] }

/-- A concrete `DSP` instance satisfying all three spec models: zero RMS and
contrast on the inputs the spec pins down, and a `1 + nFFT/2`-row, one-frame,
all-zero magnitude spectrogram. -/
def dspStd : DSP :=
  { rmsMean := fun y => if ∀ s ∈ y, s = 0 then 0 else 1
    contrastMean := fun y _ => if (∀ s ∈ y, s = 0) ∨ y.length ≤ 1 then 0 else 1
    stftMag := fun _ => List.replicate (nFFT / 2 + 1) [0] }

/-- Two-channel buffer whose channels cancel under down-mixing. -/
def bStereoOpp : SampleBuffer := ⟨[[1], [-1]], 44100⟩

/-- A decoded buffer with no samples (an empty mono file). -/
def bEmptyMono : SampleBuffer := ⟨[[]], 44100⟩

/-- A one-sample buffer at a sample rate whose high band has no bins. -/
def bLowSr : SampleBuffer := ⟨[[1]], 1000⟩

/-- A structurally invalid buffer: non-positive sample rate. -/
def bInvalidSr : SampleBuffer := ⟨[[1]], 0⟩

/-- A two-channel buffer. -/
def bPermA : SampleBuffer := ⟨[[1, 2], [3, 4]], 44100⟩

/-- `bPermA` with its channels swapped. -/
def bPermB : SampleBuffer := ⟨[[3, 4], [1, 2]], 44100⟩

/-- A silent three-channel buffer. -/
def bSilentMulti : SampleBuffer := ⟨[[0], [0], [0]], 22050⟩

/-- A silent two-sample mono buffer. -/
def bSilentShort : SampleBuffer := ⟨[[0, 0]], 44100⟩

/-- A one-sample mono buffer of amplitude 1. -/
def bOne : SampleBuffer := ⟨[[1]], 44100⟩

/-- Collaborators for which the track lookup fails. -/
def cNotFound : Collab :=
  { lookup := fun _ => none
    download := fun _ => none
    decode := fun _ => none
    persist := fun _ => false }

/-- Collaborators for which every stage succeeds, decoding to `bOne`. -/
def cHappy : Collab :=
  { lookup := fun _ => some ⟨"file.wav"⟩
    download := fun _ => some []
    decode := fun _ => some bOne
    persist := fun _ => true }

/-- The feedback record `analyze cHappy dspTiny "t1"` builds and persists. -/
def fbHappy : FeedbackRecord :=
  { track_id := "t1"
    loudness_db := 0
    peak_db := 1
    stereo_width := 0
    freq_balance := ⟨none, none, none⟩
    ai_notes := "Traccia troppo silenziosa. Attenzione al clipping. Campo stereo stretto." }

/-! ### Basic lemmas about the embedded operations -/

theorem pyAbs_eq_abs (s : ℚ) : pyAbs s = |s| := by
  unfold pyAbs
  split
  · exact (abs_of_neg (by assumption)).symm
  · exact (abs_of_nonneg (not_lt.mp (by assumption))).symm

theorem pyMax_eq_max (a b : ℚ) : pyMax a b = max a b := by
  unfold pyMax
  split
  · exact (max_eq_right (by assumption)).symm
  · exact (max_eq_left (le_of_not_le (by assumption))).symm

theorem listMax_eq_none_iff (l : List ℚ) : listMax l = none ↔ l = [] := by
  cases l <;> simp [listMax]

theorem listMax_all_zero (l : List ℚ) (h : ∀ x ∈ l, x = 0) (hne : l ≠ []) :
    listMax l = some 0 := by
  induction l with
  | nil => exact absurd rfl hne
  | cons x xs ih =>
    have hx : x = 0 := h x (List.mem_cons_self x xs)
    cases hxs : listMax xs with
    | none => simp [listMax, hxs, hx]
    | some m =>
      have hxs' : xs ≠ [] := by
        intro hnil
        rw [hnil] at hxs
        simp [listMax] at hxs
      have hzero := ih (fun y hy => h y (List.mem_cons_of_mem x hy)) hxs'
      rw [hxs] at hzero
      have hm : m = 0 := Option.some.inj hzero
      simp [listMax, hxs, hx, hm, pyMax_eq_max]

theorem listMax_perm {l₁ l₂ : List ℚ} (h : l₁.Perm l₂) : listMax l₁ = listMax l₂ := by
  induction h with
  | nil => rfl
  | cons x _ ih => simp [listMax, ih]
  | swap x y l =>
    cases hl : listMax l <;>
      simp [listMax, hl, pyMax_eq_max, max_comm, max_left_comm]
  | trans _ _ ih₁ ih₂ => exact ih₁.trans ih₂

theorem perm_flatten {l₁ l₂ : List (List ℚ)} (h : l₁.Perm l₂) :
    l₁.flatten.Perm l₂.flatten := by
  induction h with
  | nil => exact List.Perm.refl _
  | cons x _ ih => simpa using ih.append_left x
  | swap x y l =>
    simp only [List.flatten_cons]
    rw [← List.append_assoc, ← List.append_assoc]
    exact (List.perm_append_comm).append_right _
  | trans _ _ ih₁ ih₂ => exact ih₁.trans ih₂

theorem getD_zero_of_all_zero :
    ∀ (c : List ℚ) (i : ℕ), (∀ s ∈ c, s = 0) → c.getD i 0 = 0
  | [], i, _ => by cases i <;> rfl
  | x :: xs, 0, h => h x (List.mem_cons_self x xs)
  | x :: xs, i + 1, h => by
    simpa [List.getD_cons_succ] using
      getD_zero_of_all_zero xs i (fun y hy => h y (List.mem_cons_of_mem x hy))

theorem silent_flatten {b : SampleBuffer} (hs : Silent b) :
    ∀ x ∈ flattenB b, x = 0 := by
  intro x hx
  rcases List.mem_flatten.mp hx with ⟨c, hc, hxc⟩
  exact hs c hc x hxc

theorem silent_analysisChannel {b : SampleBuffer} (hs : Silent b) :
    ∀ s ∈ analysisChannel b, s = 0 := by
  intro s hsmem
  unfold analysisChannel at hsmem
  split at hsmem
  · rcases List.length_eq_one.mp (by assumption) with ⟨c, hc⟩
    rw [hc] at hsmem
    refine hs c ?_ s hsmem
    rw [hc]
    exact List.mem_cons_self c []
  · unfold downmix at hsmem
    rcases List.mem_map.mp hsmem with ⟨i, _, hval⟩
    unfold channelMeanAt at hval
    have hzero : (b.channels.map (fun c => c.getD i 0)).sum = 0 := by
      apply List.sum_eq_zero
      intro x hx
      rcases List.mem_map.mp hx with ⟨c, hc, hcx⟩
      rw [← hcx]
      exact getD_zero_of_all_zero c i (hs c hc)
    rw [← hval, hzero, zero_div]

theorem analysisChannel_length (b : SampleBuffer) :
    (analysisChannel b).length = (b.channels.headD []).length := by
  unfold analysisChannel
  split
  · rcases List.length_eq_one.mp (by assumption) with ⟨c, hc⟩
    rw [hc]
  · unfold downmix
    rw [List.length_map, List.length_range]

theorem peakRaw_eq_none_iff (b : SampleBuffer) :
    peakRaw b = none ↔ flattenB b = [] := by
  unfold peakRaw
  rw [listMax_eq_none_iff, List.map_eq_nil_iff]

theorem extract_of_ne_nil (dsp : DSP) (b : SampleBuffer) (hne : flattenB b ≠ []) :
    ∃ p, peakRaw b = some p ∧
      extract dsp b =
        some { rms := dsp.rmsMean (analysisChannel b)
               peak := p
               stereo_width := dsp.contrastMean (analysisChannel b) b.sr
               balance := bandBalance (dsp.stftMag (analysisChannel b)) b.sr } := by
  cases hp : peakRaw b with
  | none => exact absurd ((peakRaw_eq_none_iff b).mp hp) hne
  | some p => exact ⟨p, rfl, by simp [extract, hp]⟩

theorem extract_some_inv {dsp : DSP} {b : SampleBuffer} {fs : FeatureSet}
    (hx : extract dsp b = some fs) :
    peakRaw b = some fs.peak ∧
      fs.rms = dsp.rmsMean (analysisChannel b) ∧
      fs.stereo_width = dsp.contrastMean (analysisChannel b) b.sr ∧
      fs.balance = bandBalance (dsp.stftMag (analysisChannel b)) b.sr := by
  unfold extract at hx
  cases hp : peakRaw b with
  | none => rw [hp] at hx; exact absurd hx (by simp)
  | some p =>
    rw [hp] at hx
    injection hx with hx
    rw [← hx]
    exact ⟨rfl, rfl, rfl, rfl⟩

theorem dspTiny_rms_spec : RmsMeanSpec dspTiny.rmsMean := fun _ _ => rfl

theorem dspTiny_contrast_spec : ContrastMeanSpec dspTiny.contrastMean := fun _ _ _ => rfl

theorem dspStd_rms_spec : RmsMeanSpec dspStd.rmsMean := by
  intro y h
  simp only [dspStd, if_pos h]

theorem dspStd_contrast_spec : ContrastMeanSpec dspStd.contrastMean := by
  intro y sr h
  simp only [dspStd, if_pos h]

theorem dspStd_stft_spec : StftMagSpec dspStd.stftMag := by
  intro y
  constructor
  · simp [dspStd]
  · intro row hrow x hx
    have : row = [0] := List.eq_of_mem_replicate hrow
    rw [this] at hx
    simp only [List.mem_singleton] at hx
    rw [hx]

theorem selectRows_eq_nil (S : List (List ℚ)) (sr : ℚ) (p : ℚ → Bool)
    (h : ∀ f ∈ fftFrequencies sr, p f = false) : selectRows S sr p = [] := by
  unfold selectRows
  rw [List.filterMap_eq_nil_iff]
  intro fr hfr
  have hf : fr.1 ∈ fftFrequencies sr := (List.of_mem_zip hfr).1
  simp [h fr.1 hf]

theorem bandMean_nonneg {S : List (List ℚ)} {sr : ℚ} {p : ℚ → Bool} {v : ℚ}
    (hS : ∀ row ∈ S, ∀ x ∈ row, 0 ≤ x)
    (hv : bandMean S sr p = some v) : 0 ≤ v := by
  unfold bandMean npMean at hv
  split at hv
  · exact absurd hv (by simp)
  · injection hv with hv
    have hcells : ∀ x ∈ (selectRows S sr p).flatten, (0 : ℚ) ≤ x := by
      intro x hx
      rcases List.mem_flatten.mp hx with ⟨row, hrow, hxrow⟩
      unfold selectRows at hrow
      rcases List.mem_filterMap.mp hrow with ⟨fr, hfr, hfr2⟩
      have hrS : fr.2 ∈ S := (List.of_mem_zip hfr).2
      by_cases hp : p fr.1
      · rw [if_pos hp] at hfr2
        injection hfr2 with h2
        exact hS row (h2 ▸ hrS) x hxrow
      · rw [if_neg hp] at hfr2
        exact absurd hfr2 (by simp)
    rw [← hv]
    exact div_nonneg (List.sum_nonneg hcells) (Nat.cast_nonneg _)

theorem bandBalance_high_empty (S : List (List ℚ)) (sr : ℚ) (hE : HighBandEmpty sr) :
    (bandBalance S sr).high = none := by
  show bandMean S sr (fun f => decide (2000 ≤ f)) = none
  unfold bandMean
  rw [selectRows_eq_nil]
  · rfl
  · intro f hf
    exact decide_eq_false (hE f hf)

theorem highBandEmpty_of_sr_small {sr : ℚ} (h0 : 0 ≤ sr) (h4 : sr < 4000) :
    HighBandEmpty sr := by
  intro f hf habs
  unfold fftFrequencies at hf
  rcases List.mem_map.mp hf with ⟨k, hk, hfk⟩
  rw [List.mem_range] at hk
  rw [← hfk] at habs
  have hk' : (k : ℚ) ≤ 1024 := by
    have : k ≤ 1024 := Nat.lt_succ_iff.mp (by simpa [nFFT] using hk)
    exact_mod_cast this
  have hcast : ((nFFT : ℕ) : ℚ) = 2048 := by norm_num [nFFT]
  rw [hcast] at habs
  rw [le_div_iff₀ (by norm_num : (0 : ℚ) < 2048)] at habs
  have h1 : (k : ℚ) * sr ≤ 1024 * sr :=
    mul_le_mul_of_nonneg_right hk' h0
  nlinarith

theorem mem_classify_silence {fs : FeatureSet} (h : fs.rms < 1/100) :
    noteSilence ∈ classify fs := by
  simp only [classify]
  rw [if_pos h]
  simp only [List.singleton_append, List.cons_append]
  rw [if_neg (List.cons_ne_nil _ _)]
  exact List.mem_cons_self _ _

theorem joinWithSpace_append_head (x y : String) :
    ∀ as : List String, joinWithSpace ((x ++ y) :: as) = x ++ joinWithSpace (y :: as)
  | [] => rfl
  | b :: bs => by
    show (x ++ y) ++ (" ") ++ joinWithSpace (b :: bs) =
      x ++ (y ++ (" ") ++ joinWithSpace (b :: bs))
    simp [String.append_assoc]

theorem intercalate_go_join :
    ∀ (as : List String) (acc : String),
      String.intercalate.go acc (" ") as = joinWithSpace (acc :: as)
  | [], _ => rfl
  | a :: as, acc => by
    show String.intercalate.go (acc ++ (" ") ++ a) (" ") as =
      joinWithSpace (acc :: a :: as)
    rw [intercalate_go_join as (acc ++ (" ") ++ a)]
    exact joinWithSpace_append_head (acc ++ (" ")) a as

theorem intercalate_eq_joinWithSpace (notes : List String) :
    String.intercalate (" ") notes = joinWithSpace notes := by
  cases notes with
  | nil => rfl
  | cons a as => exact intercalate_go_join as a

theorem downmix_perm {chs chs' : List (List ℚ)} (hne : chs ≠ [])
    (hlen : ∀ c ∈ chs, c.length = (chs.headD []).length)
    (hp : chs.Perm chs') : downmix chs' = downmix chs := by
  have hne' : chs' ≠ [] := by
    intro h
    apply hne
    have hl := hp.length_eq
    rw [h] at hl
    simpa [List.length_eq_zero] using hl
  have hhead : (chs'.headD []).length = (chs.headD []).length := by
    rcases List.exists_cons_of_ne_nil hne' with ⟨a, t, hat⟩
    have ha : a ∈ chs' := by rw [hat]; exact List.mem_cons_self a t
    have ha2 : a ∈ chs := hp.mem_iff.mpr ha
    rw [hat]
    exact hlen a ha2
  have hfun : channelMeanAt chs' = channelMeanAt chs := by
    funext i
    unfold channelMeanAt
    rw [(hp.map (fun c => c.getD i 0)).sum_eq, hp.length_eq]
  unfold downmix
  rw [hhead, hfun]

theorem analysisChannel_perm {b bp : SampleBuffer} (hw : WellFormed b)
    (hp : b.channels.Perm bp.channels) :
    analysisChannel bp = analysisChannel b := by
  unfold analysisChannel
  have hlen := hp.length_eq
  by_cases h1 : b.channels.length = 1
  · rw [if_pos h1, if_pos (by rw [← hlen]; exact h1)]
    rcases List.length_eq_one.mp h1 with ⟨c, hc⟩
    have hbp : bp.channels = [c] := by
      rw [hc] at hp
      exact (List.singleton_perm.mp hp).symm
    rw [hc, hbp]
  · rw [if_neg h1, if_neg (by rw [← hlen]; exact h1)]
    exact downmix_perm hw.1 hw.2 hp

theorem peakRaw_perm {b bp : SampleBuffer} (hp : b.channels.Perm bp.channels) :
    peakRaw bp = peakRaw b := by
  unfold peakRaw flattenB
  exact (listMax_perm ((perm_flatten hp).map pyAbs)).symm

/-! ### The claims -/

/-- C1 (counterexample): for the two-channel buffer with channels `[1]` and
`[-1]`, the extracted peak is `1`, the maximum absolute raw sample, while the
maximum absolute sample of the down-mixed analysis channel is `0`; the
extracted peak is not computed on the down-mixed channel. -/
theorem peak_downmix_counterexample :
    (extract dspTiny bStereoOpp).map (fun fs => fs.peak) = some 1 ∧
    listMax ((analysisChannel bStereoOpp).map pyAbs) = some 0 ∧
    (extract dspTiny bStereoOpp).map (fun fs => fs.peak) ≠
      listMax ((analysisChannel bStereoOpp).map pyAbs) := by
  refine ⟨by decide, by decide, ?_⟩
  decide

/-- C1 (amended): for every buffer on which extraction succeeds, the extracted
peak equals the maximum absolute value over the raw per-channel samples (the
flattened buffer), not over the down-mixed analysis channel. -/
theorem peak_eq_flattened_max (dsp : DSP) (b : SampleBuffer) (fs : FeatureSet)
    (hx : extract dsp b = some fs) :
    some fs.peak = listMax ((flattenB b).map pyAbs) :=
  ((extract_some_inv hx).1).symm

/-- Witness for `peak_eq_flattened_max` at `dspTiny` and `bStereoOpp`. -/
theorem peak_eq_flattened_max_witness :
    some ((1 : ℚ)) = listMax ((flattenB bStereoOpp).map pyAbs) :=
  peak_eq_flattened_max dspTiny bStereoOpp ⟨0, 1, 0, ⟨none, none, none⟩⟩ (by decide)

/-- C2: the classifier evaluates all three threshold rules, appends one note
per rule that fires in the fixed order Silence, Clipping, Narrow field, falls
back to exactly one ok note when no rule fires, and always emits at least one
note. -/
theorem classifier_rules_ordered_total (fs : FeatureSet) :
    1 ≤ (classify fs).length ∧
    (noteSilence ∈ classify fs ↔ fs.rms < 1/100) ∧
    (noteClipping ∈ classify fs ↔ fs.peak > 9/10) ∧
    (noteNarrow ∈ classify fs ↔ fs.stereo_width < 10) ∧
    (noteOk ∈ classify fs ↔
      ¬ fs.rms < 1/100 ∧ ¬ fs.peak > 9/10 ∧ ¬ fs.stereo_width < 10) ∧
    classify fs =
      (if fs.rms < 1/100 ∨ fs.peak > 9/10 ∨ fs.stereo_width < 10 then
        (if fs.rms < 1/100 then [noteSilence] else []) ++
        (if fs.peak > 9/10 then [noteClipping] else []) ++
        (if fs.stereo_width < 10 then [noteNarrow] else [])
      else [noteOk]) := by
  simp only [classify, noteSilence, noteClipping, noteNarrow, noteOk]
  split_ifs <;> simp_all
  rename_i hr hp hw hd
  rcases hd with h | h | h <;> linarith

/-- C3 (counterexample): the empty mono buffer is all-silent, yet extraction
fails (Python `max` raises on the empty flattened array) instead of returning
`loudness = 0` and `peak = 0`. -/
theorem silent_empty_buffer_counterexample :
    Silent bEmptyMono ∧ extract dspTiny bEmptyMono = none := by
  constructor
  · decide
  · decide

/-- C3 (amended): for every all-silent buffer with at least one sample, of any
channel count, extraction succeeds with loudness 0 and peak 0, and the Silence
note is present in the classified notes. -/
theorem silent_nonempty_features_zero (dsp : DSP) (b : SampleBuffer)
    (hr : RmsMeanSpec dsp.rmsMean) (hs : Silent b) (hne : flattenB b ≠ []) :
    ∃ fs, extract dsp b = some fs ∧ fs.rms = 0 ∧ fs.peak = 0 ∧
      noteSilence ∈ classify fs := by
  obtain ⟨p, hp, hx⟩ := extract_of_ne_nil dsp b hne
  have hmax : listMax ((flattenB b).map pyAbs) = some 0 := by
    apply listMax_all_zero
    · intro x hx'
      rcases List.mem_map.mp hx' with ⟨s, hsmem, hsx⟩
      rw [silent_flatten hs s hsmem] at hsx
      rw [← hsx]
      rfl
    · simpa using hne
  have hp0 : p = 0 := by
    have hpr : peakRaw b = some p := hp
    rw [show peakRaw b = listMax ((flattenB b).map pyAbs) from rfl, hmax] at hpr
    exact (Option.some.inj hpr).symm
  have hrms : dsp.rmsMean (analysisChannel b) = 0 := hr _ (silent_analysisChannel hs)
  refine ⟨_, hx, hrms, hp0, ?_⟩
  apply mem_classify_silence
  show dsp.rmsMean (analysisChannel b) < 1/100
  rw [hrms]
  norm_num

/-- Witness for `silent_nonempty_features_zero` at the silent three-channel
buffer. -/
theorem silent_nonempty_features_zero_witness :
    ∃ fs, extract dspTiny bSilentMulti = some fs ∧ fs.rms = 0 ∧ fs.peak = 0 ∧
      noteSilence ∈ classify fs :=
  silent_nonempty_features_zero dspTiny bSilentMulti dspTiny_rms_spec
    (by decide) (by decide)

/-- C4 (counterexample): at sample rate 1000 Hz the high band `[2000, Nyquist]`
contains zero spectrum bins, and for the valid one-sample buffer `bLowSr` the
extracted high-band value is the undefined `numpy` mean of an empty selection
(NaN, modelled `none`), not 0. -/
theorem empty_band_nan_counterexample :
    HighBandEmpty ((1000 : ℚ)) ∧
    ∃ fs, extract dspStd bLowSr = some fs ∧
      fs.balance.high = none ∧ fs.balance.high ≠ some 0 := by
  have hE : HighBandEmpty ((1000 : ℚ)) :=
    highBandEmpty_of_sr_small (by norm_num) (by norm_num)
  refine ⟨hE, ?_⟩
  obtain ⟨p, hp, hx⟩ := extract_of_ne_nil dspStd bLowSr (by decide)
  refine ⟨_, hx, ?_⟩
  have hhigh : (bandBalance (dspStd.stftMag (analysisChannel bLowSr)) bLowSr.sr).high
      = none := bandBalance_high_empty _ _ hE
  exact ⟨hhigh, by rw [hhigh]; exact fun habs => Option.noConfusion habs⟩

/-- C4 (amended): for every buffer with at least one sample whose sample rate
leaves the high band `[2000, Nyquist]` without spectrum bins, extraction
succeeds, the high-band value is the undefined empty mean `none` (NaN in the
code) rather than 0 or an exception, and every band value that is defined is
non-negative. -/
theorem empty_band_undefined_and_nonneg (dsp : DSP) (b : SampleBuffer)
    (hS : StftMagSpec dsp.stftMag) (hne : flattenB b ≠ [])
    (hE : HighBandEmpty b.sr) :
    ∃ fs, extract dsp b = some fs ∧ fs.balance.high = none ∧
      (0 : ℚ) ≤ fs.balance.low.getD 0 ∧
      (0 : ℚ) ≤ fs.balance.mid.getD 0 ∧
      (0 : ℚ) ≤ fs.balance.high.getD 0 := by
  obtain ⟨p, hp, hx⟩ := extract_of_ne_nil dsp b hne
  have hrows : ∀ row ∈ dsp.stftMag (analysisChannel b), ∀ x ∈ row, (0 : ℚ) ≤ x :=
    (hS (analysisChannel b)).2
  have hband : ∀ p' : ℚ → Bool,
      (0 : ℚ) ≤ (bandMean (dsp.stftMag (analysisChannel b)) b.sr p').getD 0 := by
    intro p'
    cases hq : bandMean (dsp.stftMag (analysisChannel b)) b.sr p' with
    | none => simp
    | some v => simpa using bandMean_nonneg hrows hq
  refine ⟨_, hx, ?_, ?_, ?_, ?_⟩
  · exact bandBalance_high_empty _ _ hE
  · exact hband _
  · exact hband _
  · exact hband _

/-- Witness for `empty_band_undefined_and_nonneg` at `dspStd` and the
1000 Hz buffer `bLowSr`. -/
theorem empty_band_undefined_and_nonneg_witness :
    ∃ fs, extract dspStd bLowSr = some fs ∧ fs.balance.high = none ∧
      (0 : ℚ) ≤ fs.balance.low.getD 0 ∧
      (0 : ℚ) ≤ fs.balance.mid.getD 0 ∧
      (0 : ℚ) ≤ fs.balance.high.getD 0 :=
  empty_band_undefined_and_nonneg dspStd bLowSr dspStd_stft_spec (by decide)
    (highBandEmpty_of_sr_small (by decide) (by decide))

/-- C5: when the track lookup fails the endpoint returns `NotFound` having
invoked nothing beyond the lookup (in particular not the feature extractor),
and whenever the request fails with any error other than a persistence
failure, no feedback record was handed to the persistence collaborator. -/
theorem failure_before_persist_no_record (c : Collab) (dsp : DSP) (tid : String)
    (events : List Event) (e : Err)
    (h : analyze c dsp tid = (events, Except.error e)) (hne : e ≠ Err.persistError) :
    persistedEvents events = [] ∧
    (e = Err.notFound ∨ e = Err.retrievalError ∨ e = Err.decodeError →
      Event.extracted ∉ events) ∧
    (c.lookup tid = none → events = [Event.lookedUp] ∧ e = Err.notFound) := by
  cases hl : c.lookup tid with
  | none =>
    simp only [analyze, hl] at h
    obtain ⟨h1, h2⟩ := Prod.mk.injEq .. ▸ h
    refine ⟨by rw [← h1]; rfl, fun _ => by rw [← h1]; decide, fun _ => ⟨h1.symm, ?_⟩⟩
    injection h2 with h3
    exact h3.symm
  | some track =>
    cases hd : c.download track.file_url with
    | none =>
      simp only [analyze, hl, hd] at h
      obtain ⟨h1, _⟩ := Prod.mk.injEq .. ▸ h
      exact ⟨by rw [← h1]; rfl, fun _ => by rw [← h1]; decide,
        fun habs => Option.noConfusion habs⟩
    | some bytes =>
      cases hdec : c.decode bytes with
      | none =>
        simp only [analyze, hl, hd, hdec] at h
        obtain ⟨h1, _⟩ := Prod.mk.injEq .. ▸ h
        exact ⟨by rw [← h1]; rfl, fun _ => by rw [← h1]; decide,
          fun habs => Option.noConfusion habs⟩
      | some buf =>
        cases hex : extract dsp buf with
        | none =>
          simp only [analyze, hl, hd, hdec, hex] at h
          obtain ⟨h1, h2⟩ := Prod.mk.injEq .. ▸ h
          injection h2 with h3
          refine ⟨by rw [← h1]; rfl, ?_, fun habs => Option.noConfusion habs⟩
          intro hdisj
          rcases hdisj with h' | h' | h' <;>
            (rw [← h3] at h'; exact absurd h' (by decide))
        | some fs =>
          by_cases hper : c.persist (assemble tid fs (classify fs))
          · simp only [analyze, hl, hd, hdec, hex, hper, if_true] at h
            obtain ⟨_, h2⟩ := Prod.mk.injEq .. ▸ h
            exact absurd h2 (fun habs => Except.noConfusion habs)
          · simp only [analyze, hl, hd, hdec, hex, hper, if_false] at h
            obtain ⟨_, h2⟩ := Prod.mk.injEq .. ▸ h
            injection h2 with h3
            exact absurd h3.symm hne

/-- Witness for `failure_before_persist_no_record` with collaborators whose
lookup fails. -/
theorem failure_before_persist_no_record_witness :
    persistedEvents [Event.lookedUp] = [] ∧
    (Err.notFound = Err.notFound ∨ Err.notFound = Err.retrievalError ∨
      Err.notFound = Err.decodeError → Event.extracted ∉ [Event.lookedUp]) ∧
    (cNotFound.lookup ("t") = none →
      [Event.lookedUp] = [Event.lookedUp] ∧ Err.notFound = Err.notFound) :=
  failure_before_persist_no_record cNotFound dspTiny ("t") [Event.lookedUp]
    Err.notFound rfl (by decide)

/-- C6 (counterexample): the buffer `bInvalidSr` is structurally invalid (its
sample rate is 0, non-positive), yet the extractor does not fail at all — it
returns a feature set; no `DecodeMismatch`-style validation exists in the
code. -/
theorem no_structural_validation_counterexample :
    StructurallyInvalid bInvalidSr ∧ (extract dspStd bInvalidSr).isSome = true := by
  refine ⟨by decide, ?_⟩
  obtain ⟨p, hp, hx⟩ := extract_of_ne_nil dspStd bInvalidSr (by decide)
  rw [hx]
  rfl

/-- C6 (amended): the extractor performs no structural validation and raises
no `DecodeMismatch`: it fails — with the generic Python `ValueError` from
`max` on an empty sequence — exactly when the buffer contains no samples, and
for every buffer with at least one sample, structurally valid or not, it
returns a feature set. -/
theorem extract_fails_iff_no_samples (dsp : DSP) (b : SampleBuffer) :
    extract dsp b = none ↔ flattenB b = [] := by
  constructor
  · intro h
    by_contra hne
    obtain ⟨p, hp, hx⟩ := extract_of_ne_nil dsp b hne
    rw [hx] at h
    exact Option.noConfusion h
  · intro h
    unfold extract
    rw [(peakRaw_eq_none_iff b).mpr h]

/-- C7: extraction is invariant under permutation of the channel order of a
well-formed buffer: the permuted buffer yields the identical feature set —
in particular identical loudness, peak and band balance. -/
theorem extract_channel_permutation_invariant (dsp : DSP) (b bp : SampleBuffer)
    (hw : WellFormed b) (hp : b.channels.Perm bp.channels) (hsr : b.sr = bp.sr) :
    extract dsp bp = extract dsp b := by
  have hac : analysisChannel bp = analysisChannel b := analysisChannel_perm hw hp
  have hpeak : peakRaw bp = peakRaw b := peakRaw_perm hp
  unfold extract
  rw [hac, hpeak, ← hsr]

/-- Witness for `extract_channel_permutation_invariant` at the two-channel
buffer `bPermA` and its channel-swapped variant `bPermB`. -/
theorem extract_channel_permutation_invariant_witness :
    extract dspTiny bPermB = extract dspTiny bPermA :=
  extract_channel_permutation_invariant dspTiny bPermA bPermB (by decide)
    (by decide) rfl

/-- C8: for every degenerate buffer — silent, or with at most one sample per
channel — on which extraction succeeds, the extracted spectral-spread value
is 0. -/
theorem degenerate_spread_zero (dsp : DSP) (b : SampleBuffer) (fs : FeatureSet)
    (hC : ContrastMeanSpec dsp.contrastMean) (hd : DegenerateBuffer b)
    (hx : extract dsp b = some fs) : fs.stereo_width = 0 := by
  obtain ⟨-, -, hsw, -⟩ := extract_some_inv hx
  rw [hsw]
  apply hC
  rcases hd with hsil | hshort
  · exact Or.inl (silent_analysisChannel hsil)
  · exact Or.inr (by rw [analysisChannel_length]; exact hshort)

/-- Witness for `degenerate_spread_zero` at the silent buffer `bSilentShort`. -/
theorem degenerate_spread_zero_witness :
    ((⟨0, 0, 0, ⟨none, none, none⟩⟩ : FeatureSet)).stereo_width = 0 :=
  degenerate_spread_zero dspTiny bSilentShort ⟨0, 0, 0, ⟨none, none, none⟩⟩
    dspTiny_contrast_spec (by decide) (by decide)

/-- C9: for every non-empty track identifier, the assembled feedback record
joins the classifier notes into one string with a single-space separator,
preserving their order with no other transformation, and carries the given
track identifier. -/
theorem assemble_joins_notes_single_space (tid : String) (fs : FeatureSet)
    (notes : List String) (_h : tid ≠ ("")) :
    (assemble tid fs notes).ai_notes = joinWithSpace notes ∧
    (assemble tid fs notes).track_id = tid :=
  ⟨intercalate_eq_joinWithSpace notes, rfl⟩

/-- Witness for `assemble_joins_notes_single_space` at a concrete record. -/
theorem assemble_joins_notes_single_space_witness :
    (assemble ("t1") ⟨0, 0, 0, ⟨none, none, none⟩⟩ [noteSilence, noteOk]).ai_notes =
      joinWithSpace [noteSilence, noteOk] ∧
    (assemble ("t1") ⟨0, 0, 0, ⟨none, none, none⟩⟩ [noteSilence, noteOk]).track_id =
      ("t1") :=
  assemble_joins_notes_single_space ("t1") ⟨0, 0, 0, ⟨none, none, none⟩⟩
    [noteSilence, noteOk] (by decide)

/-- C10: on every successful request, the feedback object in the response is
exactly the record handed to the persistence collaborator (the only persisted
record of the trace), and its track identifier is the request's. -/
theorem response_equals_persisted_record (c : Collab) (dsp : DSP) (tid : String)
    (events : List Event) (resp : AnalyzeResponse)
    (h : analyze c dsp tid = (events, Except.ok resp)) :
    persistedEvents events = [Event.persisted resp.feedback] ∧
    resp.feedback.track_id = tid := by
  cases hl : c.lookup tid with
  | none =>
    simp only [analyze, hl] at h
    obtain ⟨_, h2⟩ := Prod.mk.injEq .. ▸ h
    exact absurd h2 (fun habs => Except.noConfusion habs)
  | some track =>
    cases hd : c.download track.file_url with
    | none =>
      simp only [analyze, hl, hd] at h
      obtain ⟨_, h2⟩ := Prod.mk.injEq .. ▸ h
      exact absurd h2 (fun habs => Except.noConfusion habs)
    | some bytes =>
      cases hdec : c.decode bytes with
      | none =>
        simp only [analyze, hl, hd, hdec] at h
        obtain ⟨_, h2⟩ := Prod.mk.injEq .. ▸ h
        exact absurd h2 (fun habs => Except.noConfusion habs)
      | some buf =>
        cases hex : extract dsp buf with
        | none =>
          simp only [analyze, hl, hd, hdec, hex] at h
          obtain ⟨_, h2⟩ := Prod.mk.injEq .. ▸ h
          exact absurd h2 (fun habs => Except.noConfusion habs)
        | some fs =>
          by_cases hper : c.persist (assemble tid fs (classify fs))
          · simp only [analyze, hl, hd, hdec, hex, hper, if_true] at h
            obtain ⟨h1, h2⟩ := Prod.mk.injEq .. ▸ h
            injection h2 with h3
            have hresp : resp = ⟨("analyzed"), assemble tid fs (classify fs)⟩ :=
              h3.symm
            constructor
            · rw [← h1, hresp]
              rfl
            · rw [hresp]
              rfl
          · simp only [analyze, hl, hd, hdec, hex, hper, if_false] at h
            obtain ⟨_, h2⟩ := Prod.mk.injEq .. ▸ h
            exact absurd h2 (fun habs => Except.noConfusion habs)

/-- Witness for `response_equals_persisted_record` for a request in which
every collaborator succeeds. -/
theorem response_equals_persisted_record_witness :
    persistedEvents [Event.lookedUp, Event.downloaded, Event.decoded,
      Event.extracted, Event.persisted fbHappy] = [Event.persisted fbHappy] ∧
    fbHappy.track_id = ("t1") :=
  response_equals_persisted_record cHappy dspTiny ("t1")
    [Event.lookedUp, Event.downloaded, Event.decoded, Event.extracted,
      Event.persisted fbHappy]
    ⟨("analyzed"), fbHappy⟩ rfl

end Analyzer
